import Mathlib

/-!
Shallow embedding of `src/diskdump.py`, a disk backup, restore and
verification utility. Device and dump contents are modelled as lists of
bytes (`List Nat`). The gzip codec is a pass-through collaborator: a dump
file is represented by its decompressed byte content. Stream reads follow
Python file semantics: `stream.read(n)` returns the next
`min n remaining` bytes and advances the position by that many bytes.
-/

namespace Diskdump

/-- Bytes are modelled as natural numbers; byte strings as lists. -/
abbrev Byte := Nat

/-- Source line 138 (also 186, 246): `block_count = (disk_size + block_size - 1) // block_size`. -/
def blockCount (size bs : Nat) : Nat := (size + bs - 1) / bs

/-- Source line 149 compares `block` (a `bytes` value read from a binary
stream) against the str literal that is empty. In Python 3 a `bytes` value
never equals a `str` value, so this comparison is `False` for every block. -/
def pyBytesEqStr (_block : List Byte) (_s : String) : Bool := false

/-- Result of the backup block loop: the blocks written through the gzip
sink, the block ids on which a device read was performed, and whether the
early-EOF `break` on source line 151 ever executed. -/
structure BackupLoopResult where
  writtenBlocks : List (List Byte)
  readIds : List Nat
  brokeEarly : Bool
deriving Repr, DecidableEq

/-- Backup block loop, source lines 139-160, with the per-iteration device
read results supplied by an oracle `reads` (the device is a live block
device, so a read may return fewer bytes than the size measured earlier
suggests). Each iteration reads a block, tests it against the empty str
via the Python 3 bytes-versus-str comparison of line 149 (see `pyBytesEqStr`), and
otherwise writes the block to the dump. The last argument is the number of
remaining iterations of `range(block_count)`. -/
def backupLoopGen (reads : Nat → List Byte) : Nat → Nat → BackupLoopResult
  | _, 0 => ⟨[], [], false⟩
  | blockId, n+1 =>
    let block := reads blockId
    if pyBytesEqStr block "" then ⟨[], [blockId], true⟩
    else
      let r := backupLoopGen reads (blockId+1) n
      ⟨block :: r.writtenBlocks, blockId :: r.readIds, r.brokeEarly⟩

/-- Backup block loop specialised to a stable device with content `D`:
`disk_stream.read(block_size)` at position `pos` returns
`(D.drop pos).take bs` and advances the position by the returned length
(source line 148). The last argument is the remaining iteration count. -/
def backupBlocks (D : List Byte) (bs : Nat) : Nat → Nat → List (List Byte)
  | _, 0 => []
  | pos, n+1 =>
    let block := (D.drop pos).take bs
    if pyBytesEqStr block "" then []
    else block :: backupBlocks D bs (pos + block.length) n

/-- Decompressed content of the dump produced by `cmd_backup` (source
lines 125-165) on a stable device `disk` with block size `bs`: the
concatenation of the blocks written through the gzip stream. -/
def cmd_backup (disk : List Byte) (bs : Nat) : List Byte :=
  (backupBlocks disk bs 0 (blockCount disk.length bs)).flatten

/-- Outcome of the check block loop, source lines 187-214: the final value
of the local variable `good` (`none` while it is still unassigned), the
block id reported by the first-mismatch message of lines 210-211, and the
block ids on which a comparison was performed. -/
structure CheckOutcome where
  good : Option Bool
  mismatchAt : Option Nat
  compared : List Nat
deriving Repr, DecidableEq

/-- Check block loop, source lines 187-214. Both streams are read
independently with their own positions (`dpos` for the device, `gpos` for
the decompressed dump). On `dump_block != disk_block` the loop sets
`good = False`, reports the block id and breaks; otherwise it sets
`good = True` and continues. The final argument is the remaining iteration
count of `range(block_count)`. -/
def checkLoop (disk dump : List Byte) (bs : Nat) :
    Nat → Nat → Nat → Option Bool → Nat → CheckOutcome
  | _, _, _, g, 0 => ⟨g, none, []⟩
  | blockId, dpos, gpos, _, n+1 =>
    let diskBlock := (disk.drop dpos).take bs
    let dumpBlock := (dump.drop gpos).take bs
    if dumpBlock ≠ diskBlock then
      ⟨some false, some blockId, [blockId]⟩
    else
      let r := checkLoop disk dump bs (blockId+1)
        (dpos + diskBlock.length) (gpos + dumpBlock.length) (some true) n
      ⟨r.good, r.mismatchAt, blockId :: r.compared⟩

/-- Whole check loop of `cmd_check` starting from block id 0 and both
positions at 0, with `good` unassigned and `block_count` iterations
(source lines 186-214). -/
def checkRun (disk dump : List Byte) (bs : Nat) : CheckOutcome :=
  checkLoop disk dump bs 0 0 0 none (blockCount disk.length bs)

/-- Result of `cmd_check` as observed by its caller: either the boolean
`good` returned on source line 226, or the UnboundLocalError that the
`if good:` on line 218 raises when the loop body never ran and `good` was
never assigned. -/
inductive CheckResult where
  | ok (good : Bool)
  | unboundLocalError
deriving Repr, DecidableEq

/-- Content behaviour of `cmd_check` (source lines 168-226) on a device
`disk` and a dump with decompressed content `dump`. -/
def cmd_check (disk dump : List Byte) (bs : Nat) : CheckResult :=
  match (checkRun disk dump bs).good with
  | some g => CheckResult.ok g
  | none => CheckResult.unboundLocalError

/-- Open flags of a device file descriptor. -/
structure OpenFlags where
  writeOnly : Bool
  sync : Bool
deriving Repr, DecidableEq

/-- Source line 232: `os.open(ns.disk, os.O_WRONLY|os.O_SYNC)` — the
restore device descriptor is write-only with synchronous writes. -/
def restoreDiskOpenFlags : OpenFlags := { writeOnly := true, sync := true }

/-- One `os.write` call to the device during restore: the bytes written
and the open flags of the descriptor the write goes through. -/
structure WriteEv where
  data : List Byte
  flags : OpenFlags
deriving Repr, DecidableEq

/-- Result of the restore block loop: the device content after the loop,
the final device write position `dpos` (equal to the total number of bytes
written, since each `os.write` advances the descriptor offset by the
length written), the final dump stream position `gpos`, whether the
early-EOF `break` of source line 259 executed, and the list of device
writes performed. -/
structure RestoreResult where
  device : List Byte
  dpos : Nat
  gpos : Nat
  earlyEOF : Bool
  writes : List WriteEv
deriving Repr, DecidableEq

/-- Overwrite `b` into `dev` at offset `p`, the effect of `os.write` on a
block device positioned at `p` (source line 268). -/
def listWrite (dev : List Byte) (p : Nat) (b : List Byte) : List Byte :=
  dev.take p ++ b ++ dev.drop (p + b.length)

/-- Restore block loop, source lines 247-268: read up to `block_size`
bytes from the decompressing dump stream at `gpos`; a genuinely empty read
(`block == b` followed by an empty bytes literal, line 257 — this one is a
bytes-to-bytes comparison, unlike backup) breaks out of the loop;
otherwise the block is written to the device at `dpos`. The final argument
is the remaining iteration count of `range(block_count)`. -/
def restoreLoop (dump : List Byte) (bs : Nat) : List Byte → Nat → Nat → Nat → RestoreResult
  | dev, dpos, gpos, 0 => ⟨dev, dpos, gpos, false, []⟩
  | dev, dpos, gpos, n+1 =>
    let block := (dump.drop gpos).take bs
    if block = [] then ⟨dev, dpos, gpos, true, []⟩
    else
      let r := restoreLoop dump bs (listWrite dev dpos block)
        (dpos + block.length) (gpos + block.length) n
      ⟨r.device, r.dpos, r.gpos, r.earlyEOF, ⟨block, restoreDiskOpenFlags⟩ :: r.writes⟩

/-- Content behaviour of `cmd_restore` (source lines 229-273): the device
starts with content `dev`, the dump decompresses to `dump`, and
`block_count` is computed from the device size (source line 246). -/
def cmd_restore (dev dump : List Byte) (bs : Nat) : RestoreResult :=
  restoreLoop dump bs dev 0 0 (blockCount dev.length bs)

/-- Process exit status produced by `raise SystemExit(main())` (source
lines 282-284) when the selected action is `cmd_check`, which returns the
boolean `good` (line 226). Python `bool` is an `int` subclass, so
`SystemExit(True)` exits with status 1 and `SystemExit(False)` with
status 0. -/
def checkProcessExitStatus (good : Bool) : Nat := if good then 1 else 0

/-- Kind of filesystem node behind a path, as classified by `stat.S_ISBLK`
and `stat.S_ISREG`. -/
inductive NodeKind where
  | blockDevice
  | regularFile
  | other
deriving Repr, DecidableEq

/-- Side of an operation named in a validation failure message. -/
inductive Side where
  | disk
  | dump
deriving Repr, DecidableEq

/-- Observable steps of one command, in program order: handle acquisition,
fstat calls, node-kind validation, the ValueError raised on a failed
validation (its message names the side and the path, source lines 112,
114, 133, 176, 183, 237, 243), size computation (the seek-to-end of the
device and the read of the dump stat size), the block loop, and handle
release. -/
inductive Ev where
  | acquireDisk
  | acquireDump
  | statDisk
  | statDump
  | checkDiskIsBlk
  | checkDumpIsReg
  | validationFail (side : Side)
  | seekEndDisk
  | readDumpSize
  | blockLoop
  | closeDisk
  | closeDump
deriving Repr, DecidableEq

/-- Step sequence of `cmd_info` (source lines 105-122) as a function of
the node kinds behind the disk and dump paths: both fstat calls, then both
validations, then both size computations, with the `finally` closing both
handles on every path. -/
def infoTrace (dk gk : NodeKind) : List Ev :=
  [Ev.acquireDisk, Ev.acquireDump, Ev.statDisk, Ev.statDump, Ev.checkDiskIsBlk] ++
  if dk ≠ NodeKind.blockDevice then
    [Ev.validationFail Side.disk, Ev.closeDisk, Ev.closeDump]
  else
    [Ev.checkDumpIsReg] ++
    if gk ≠ NodeKind.regularFile then
      [Ev.validationFail Side.dump, Ev.closeDisk, Ev.closeDump]
    else
      [Ev.seekEndDisk, Ev.readDumpSize, Ev.closeDisk, Ev.closeDump]

/-- Step sequence of `cmd_backup` (source lines 125-165): only the disk
side is fstat-ed and validated (lines 131-133); there is no dump-side
validation anywhere in the function. -/
def backupTrace (dk _gk : NodeKind) : List Ev :=
  [Ev.acquireDisk, Ev.acquireDump, Ev.statDisk, Ev.checkDiskIsBlk] ++
  if dk ≠ NodeKind.blockDevice then
    [Ev.validationFail Side.disk, Ev.closeDisk, Ev.closeDump]
  else
    [Ev.seekEndDisk, Ev.blockLoop, Ev.closeDisk, Ev.closeDump]

/-- Step sequence of `cmd_check` (source lines 168-226): the disk is
validated (lines 174-176), then the device size is computed by seeking to
the end (lines 177-178), and only then is the dump fstat-ed and validated
(lines 181-183). -/
def checkTrace (dk gk : NodeKind) : List Ev :=
  [Ev.acquireDisk, Ev.acquireDump, Ev.statDisk, Ev.checkDiskIsBlk] ++
  if dk ≠ NodeKind.blockDevice then
    [Ev.validationFail Side.disk, Ev.closeDisk, Ev.closeDump]
  else
    [Ev.seekEndDisk, Ev.statDump, Ev.checkDumpIsReg] ++
    if gk ≠ NodeKind.regularFile then
      [Ev.validationFail Side.dump, Ev.closeDisk, Ev.closeDump]
    else
      [Ev.readDumpSize, Ev.blockLoop, Ev.closeDisk, Ev.closeDump]

/-- Step sequence of `cmd_restore` (source lines 229-273): same shape as
`cmd_check` — disk validation (lines 235-237), device size via lseek to
the end (line 238), then dump fstat and validation (lines 241-243). -/
def restoreTrace (dk gk : NodeKind) : List Ev :=
  [Ev.acquireDisk, Ev.acquireDump, Ev.statDisk, Ev.checkDiskIsBlk] ++
  if dk ≠ NodeKind.blockDevice then
    [Ev.validationFail Side.disk, Ev.closeDisk, Ev.closeDump]
  else
    [Ev.seekEndDisk, Ev.statDump, Ev.checkDumpIsReg] ++
    if gk ≠ NodeKind.regularFile then
      [Ev.validationFail Side.dump, Ev.closeDisk, Ev.closeDump]
    else
      [Ev.readDumpSize, Ev.blockLoop, Ev.closeDisk, Ev.closeDump]

/-- Event `a` occurs strictly before event `b` in the step list `l`. -/
def occursBefore (a b : Ev) (l : List Ev) : Prop :=
  a ∈ l ∧ b ∈ l ∧ l.indexOf a < l.indexOf b

instance (a b : Ev) (l : List Ev) : Decidable (occursBefore a b l) := by
  unfold occursBefore; infer_instance

/-- Handle lifecycle facts for one command run. All four commands share
one resource shape (source lines 105-108 and 120-122, 128-130 and
162-164, 171-173 and 215-217, 232-234 and 270-272): the device endpoint
is opened first, the dump endpoint second, and the try/finally block that
closes both handles begins only after both opens have succeeded. -/
structure HandleOutcome where
  diskAcquired : Bool
  dumpAcquired : Bool
  diskClosed : Bool
  dumpClosed : Bool
  errored : Bool
deriving Repr, DecidableEq

/-- Handle lifecycle of a command as a function of which step fails: the
device open, the dump open, or the command body inside the try block. When
the dump open raises, the already-open device handle is not inside any
try/finally, so it is not closed before the error propagates. When the
body raises, the `finally` closes both handles first. -/
def commandHandles (diskOpenFails dumpOpenFails bodyFails : Bool) : HandleOutcome :=
  if diskOpenFails then ⟨false, false, false, false, true⟩
  else if dumpOpenFails then ⟨true, false, false, false, true⟩
  else ⟨true, true, true, true, bodyFails⟩

/-- Chunk of content `X` belonging to block id `i` with block size `bs`. -/
def chunkAt (X : List Byte) (bs i : Nat) : List Byte := (X.drop (i * bs)).take bs

end Diskdump

namespace Diskdump

lemma take_append_drop_min (l : List Byte) (bs : Nat) :
    l.take bs ++ l.drop (min bs l.length) = l := by
  rcases le_total bs l.length with h | h
  · rw [min_eq_left h, List.take_append_drop]
  · rw [min_eq_right h, List.drop_eq_nil_of_le le_rfl, List.append_nil,
      List.take_of_length_le h]

lemma chunk_glue (X : List Byte) (bs p : Nat) :
    (X.drop p).take bs ++ X.drop (p + ((X.drop p).take bs).length) = X.drop p := by
  have h1 : X.drop (p + ((X.drop p).take bs).length)
      = (X.drop p).drop (((X.drop p).take bs).length) :=
    (List.drop_drop _ p X).symm
  rw [h1, List.length_take]
  exact take_append_drop_min (X.drop p) bs

lemma blockCount_mul_bounds (size bs : Nat) (hbs : 1 ≤ bs) :
    size ≤ blockCount size bs * bs ∧ blockCount size bs * bs < size + bs := by
  constructor
  · rcases Nat.eq_zero_or_pos size with h0 | h0
    · simp [h0]
    · have h1 : blockCount size bs = (size - 1) / bs + 1 := by
        unfold blockCount
        have : size + bs - 1 = (size - 1) + bs := by omega
        rw [this, Nat.add_div_right _ (by omega)]
      have h2 : size - 1 < ((size - 1) / bs + 1) * bs :=
        (Nat.div_lt_iff_lt_mul (by omega)).mp (Nat.lt_succ_self _)
      rw [h1]; omega
  · have h3 : blockCount size bs * bs ≤ size + bs - 1 := Nat.div_mul_le_self _ bs
    omega

lemma blockCount_zero (bs : Nat) : blockCount 0 bs = 0 := by
  unfold blockCount
  rcases Nat.eq_zero_or_pos bs with h | h
  · subst h; rfl
  · exact Nat.div_eq_of_lt (by omega)

lemma blockCount_pos (size bs : Nat) (hs : 1 ≤ size) (hbs : 1 ≤ bs) :
    1 ≤ blockCount size bs := by
  unfold blockCount
  rw [Nat.le_div_iff_mul_le (by omega)]
  omega

lemma backupBlocks_flatten (D : List Byte) (bs : Nat) :
    ∀ (n pos : Nat), D.length ≤ pos + n * bs →
      (backupBlocks D bs pos n).flatten = D.drop pos := by
  intro n
  induction n with
  | zero =>
    intro pos h
    simp only [backupBlocks, List.flatten_nil]
    exact (List.drop_eq_nil_of_le (by simpa using h)).symm
  | succ n ih =>
    intro pos h
    simp only [backupBlocks, pyBytesEqStr, Bool.false_eq_true, if_false, List.flatten_cons]
    have hlen : ((D.drop pos).take bs).length = min bs (D.length - pos) := by
      rw [List.length_take, List.length_drop]
    have hmul : (n + 1) * bs = n * bs + bs := Nat.succ_mul n bs
    rw [ih (pos + ((D.drop pos).take bs).length) (by omega)]
    exact chunk_glue D bs pos

lemma backupLoopGen_no_break (reads : Nat → List Byte) :
    ∀ (n i : Nat), (backupLoopGen reads i n).brokeEarly = false
      ∧ (backupLoopGen reads i n).readIds = List.range' i n := by
  intro n
  induction n with
  | zero => intro i; exact ⟨rfl, rfl⟩
  | succ n ih =>
    intro i
    simp only [backupLoopGen, pyBytesEqStr, Bool.false_eq_true, if_false]
    exact ⟨(ih (i + 1)).1, by rw [List.range'_succ i n 1, (ih (i + 1)).2]⟩

end Diskdump


namespace Diskdump

lemma checkLoop_succ (disk dump : List Byte) (bs i dpos gpos : Nat) (g : Option Bool) (n : Nat) :
    checkLoop disk dump bs i dpos gpos g (n+1)
      = if (dump.drop gpos).take bs ≠ (disk.drop dpos).take bs then
          ⟨some false, some i, [i]⟩
        else
          ⟨(checkLoop disk dump bs (i+1) (dpos + ((disk.drop dpos).take bs).length)
              (gpos + ((dump.drop gpos).take bs).length) (some true) n).good,
           (checkLoop disk dump bs (i+1) (dpos + ((disk.drop dpos).take bs).length)
              (gpos + ((dump.drop gpos).take bs).length) (some true) n).mismatchAt,
           i :: (checkLoop disk dump bs (i+1) (dpos + ((disk.drop dpos).take bs).length)
              (gpos + ((dump.drop gpos).take bs).length) (some true) n).compared⟩ := rfl

lemma drop_min_take (X : List Byte) (bs p : Nat) :
    (X.drop (min p X.length)).take bs = (X.drop p).take bs := by
  rcases le_total p X.length with h | h
  · rw [min_eq_left h]
  · rw [min_eq_right h, List.drop_eq_nil_of_le le_rfl, List.drop_eq_nil_of_le h]

lemma checkLoop_all_eq (disk dump : List Byte) (bs : Nat) :
    ∀ (n i : Nat) (g : Option Bool),
      (∀ j, i ≤ j → j < i + (n+1) → chunkAt dump bs j = chunkAt disk bs j) →
      checkLoop disk dump bs i (min (i * bs) disk.length) (min (i * bs) dump.length) g (n+1)
        = ⟨some true, none, List.range' i (n+1)⟩ := by
  intro n
  induction n with
  | zero =>
    intro i g h
    have hchunk : (dump.drop (min (i * bs) dump.length)).take bs
        = (disk.drop (min (i * bs) disk.length)).take bs := by
      rw [drop_min_take, drop_min_take]
      exact h i le_rfl (by omega)
    rw [checkLoop_succ, if_neg (not_ne_iff.mpr hchunk)]
    rfl
  | succ n ih =>
    intro i g h
    have hchunk : (dump.drop (min (i * bs) dump.length)).take bs
        = (disk.drop (min (i * bs) disk.length)).take bs := by
      rw [drop_min_take, drop_min_take]
      exact h i le_rfl (by omega)
    have e1 : min (i * bs) disk.length + ((disk.drop (min (i * bs) disk.length)).take bs).length
        = min ((i+1) * bs) disk.length := by
      rw [drop_min_take, List.length_take, List.length_drop, Nat.succ_mul]; omega
    have e2 : min (i * bs) dump.length + ((dump.drop (min (i * bs) dump.length)).take bs).length
        = min ((i+1) * bs) dump.length := by
      rw [drop_min_take, List.length_take, List.length_drop, Nat.succ_mul]; omega
    have hrec := ih (i+1) (some true) (fun j hj1 hj2 => h j (by omega) (by omega))
    rw [checkLoop_succ, if_neg (not_ne_iff.mpr hchunk), e1, e2, hrec]
    simp [List.range'_succ]

lemma checkLoop_first_mismatch (disk dump : List Byte) (bs : Nat) :
    ∀ (n i k : Nat) (g : Option Bool),
      i ≤ k → k < i + n →
      (∀ j, i ≤ j → j < k → chunkAt dump bs j = chunkAt disk bs j) →
      chunkAt dump bs k ≠ chunkAt disk bs k →
      checkLoop disk dump bs i (min (i * bs) disk.length) (min (i * bs) dump.length) g n
        = ⟨some false, some k, List.range' i (k + 1 - i)⟩ := by
  intro n
  induction n with
  | zero => intro i k g h1 h2 h3 h4; omega
  | succ n ih =>
    intro i k g h1 h2 h3 h4
    rcases Nat.eq_or_lt_of_le h1 with heq | hlt
    · subst heq
      have hne : (dump.drop (min (i * bs) dump.length)).take bs
          ≠ (disk.drop (min (i * bs) disk.length)).take bs := by
        rw [drop_min_take, drop_min_take]
        exact h4
      rw [checkLoop_succ, if_pos hne]
      have : i + 1 - i = 1 := by omega
      rw [this]
      rfl
    · have hchunk : (dump.drop (min (i * bs) dump.length)).take bs
          = (disk.drop (min (i * bs) disk.length)).take bs := by
        rw [drop_min_take, drop_min_take]
        exact h3 i le_rfl hlt
      have e1 : min (i * bs) disk.length + ((disk.drop (min (i * bs) disk.length)).take bs).length
          = min ((i+1) * bs) disk.length := by
        rw [drop_min_take, List.length_take, List.length_drop, Nat.succ_mul]; omega
      have e2 : min (i * bs) dump.length + ((dump.drop (min (i * bs) dump.length)).take bs).length
          = min ((i+1) * bs) dump.length := by
        rw [drop_min_take, List.length_take, List.length_drop, Nat.succ_mul]; omega
      have hrec := ih (i+1) k (some true) (by omega) (by omega)
        (fun j hj1 hj2 => h3 j (by omega) hj2) h4
      rw [checkLoop_succ, if_neg (not_ne_iff.mpr hchunk), e1, e2, hrec]
      have : k + 1 - i = (k - i) + 1 := by omega
      rw [this, List.range'_succ]
      have : k + 1 - (i + 1) = k - i := by omega
      rw [this]

lemma restoreLoop_succ (dump : List Byte) (bs : Nat) (dev : List Byte) (dpos gpos n : Nat) :
    restoreLoop dump bs dev dpos gpos (n+1)
      = if (dump.drop gpos).take bs = [] then ⟨dev, dpos, gpos, true, []⟩
        else
          ⟨(restoreLoop dump bs (listWrite dev dpos ((dump.drop gpos).take bs))
              (dpos + ((dump.drop gpos).take bs).length)
              (gpos + ((dump.drop gpos).take bs).length) n).device,
           (restoreLoop dump bs (listWrite dev dpos ((dump.drop gpos).take bs))
              (dpos + ((dump.drop gpos).take bs).length)
              (gpos + ((dump.drop gpos).take bs).length) n).dpos,
           (restoreLoop dump bs (listWrite dev dpos ((dump.drop gpos).take bs))
              (dpos + ((dump.drop gpos).take bs).length)
              (gpos + ((dump.drop gpos).take bs).length) n).gpos,
           (restoreLoop dump bs (listWrite dev dpos ((dump.drop gpos).take bs))
              (dpos + ((dump.drop gpos).take bs).length)
              (gpos + ((dump.drop gpos).take bs).length) n).earlyEOF,
           ⟨(dump.drop gpos).take bs, restoreDiskOpenFlags⟩ ::
             (restoreLoop dump bs (listWrite dev dpos ((dump.drop gpos).take bs))
              (dpos + ((dump.drop gpos).take bs).length)
              (gpos + ((dump.drop gpos).take bs).length) n).writes⟩ := rfl

lemma listWrite_length (dev b : List Byte) (p : Nat) (h : p + b.length ≤ dev.length) :
    (listWrite dev p b).length = dev.length := by
  simp only [listWrite, List.length_append, List.length_take, List.length_drop]
  omega

lemma listWrite_take (dev b : List Byte) (p : Nat) (h : p ≤ dev.length) :
    (listWrite dev p b).take (p + b.length) = dev.take p ++ b := by
  have hx : (dev.take p ++ b).length = p + b.length := by
    simp only [List.length_append, List.length_take]
    omega
  rw [listWrite, ← hx, List.take_left]

lemma listWrite_drop_ge (dev b : List Byte) (p m : Nat) (h : p + b.length ≤ m) :
    (listWrite dev p b).drop m = dev.drop m := by
  rw [listWrite, List.drop_append_eq_append_drop, List.drop_append_eq_append_drop]
  have h1 : (dev.take p).drop m = [] :=
    List.drop_eq_nil_of_le (by rw [List.length_take]; omega)
  have h2 : b.drop (m - (dev.take p).length) = [] :=
    List.drop_eq_nil_of_le (by rw [List.length_take]; omega)
  rw [h1, h2, List.nil_append, List.nil_append, List.drop_drop]
  rcases le_total p dev.length with hp | hp
  · congr 1
    simp only [List.length_append, List.length_take]
    omega
  · rw [List.drop_eq_nil_of_le (by omega), List.drop_eq_nil_of_le (by omega)]

lemma restoreLoop_full (dump : List Byte) (bs : Nat) (hbs : 1 ≤ bs) :
    ∀ (n : Nat) (dev : List Byte) (p : Nat),
      dev.length = dump.length → p ≤ dump.length → dump.length ≤ p + n * bs →
      (restoreLoop dump bs dev p p n).device = dev.take p ++ dump.drop p ∧
      (restoreLoop dump bs dev p p n).gpos = dump.length := by
  intro n
  induction n with
  | zero =>
    intro dev p hlen hple hcov
    have hp : p = dump.length := by omega
    subst hp
    constructor
    · show dev = dev.take dump.length ++ dump.drop dump.length
      rw [List.drop_eq_nil_of_le le_rfl, List.append_nil, List.take_of_length_le (by omega)]
    · rfl
  | succ n ih =>
    intro dev p hlen hple hcov
    rcases Nat.eq_or_lt_of_le hple with heq | hlt
    · have hblock : (dump.drop p).take bs = [] := by
        rw [heq, List.drop_eq_nil_of_le le_rfl, List.take_nil]
      rw [restoreLoop_succ, if_pos hblock]
      constructor
      · show dev = dev.take p ++ dump.drop p
        rw [heq, List.drop_eq_nil_of_le le_rfl, List.append_nil,
          List.take_of_length_le (by omega)]
      · exact heq
    · have hbl : ((dump.drop p).take bs).length = min bs (dump.length - p) := by
        rw [List.length_take, List.length_drop]
      have hblock : (dump.drop p).take bs ≠ [] := by
        intro hcon
        rw [hcon] at hbl
        simp at hbl
        omega
      have hmul : (n + 1) * bs = n * bs + bs := Nat.succ_mul n bs
      have hfit : p + ((dump.drop p).take bs).length ≤ dump.length := by omega
      have hrec := ih (listWrite dev p ((dump.drop p).take bs))
        (p + ((dump.drop p).take bs).length)
        (by rw [listWrite_length _ _ _ (by omega)]; exact hlen) hfit (by omega)
      rw [restoreLoop_succ, if_neg hblock]
      refine ⟨?_, hrec.2⟩
      rw [hrec.1, listWrite_take _ _ _ (by omega), List.append_assoc, chunk_glue]

lemma restoreLoop_suffix (dump : List Byte) (bs : Nat) :
    ∀ (n : Nat) (dev : List Byte) (dpos gpos : Nat),
      dpos ≤ (restoreLoop dump bs dev dpos gpos n).dpos ∧
      (restoreLoop dump bs dev dpos gpos n).device.drop ((restoreLoop dump bs dev dpos gpos n).dpos)
        = dev.drop ((restoreLoop dump bs dev dpos gpos n).dpos) := by
  intro n
  induction n with
  | zero => intro dev dpos gpos; exact ⟨le_rfl, rfl⟩
  | succ n ih =>
    intro dev dpos gpos
    by_cases hblock : (dump.drop gpos).take bs = []
    · rw [restoreLoop_succ, if_pos hblock]
      exact ⟨le_rfl, rfl⟩
    · rw [restoreLoop_succ, if_neg hblock]
      obtain ⟨ha, hb⟩ := ih (listWrite dev dpos ((dump.drop gpos).take bs))
        (dpos + ((dump.drop gpos).take bs).length)
        (gpos + ((dump.drop gpos).take bs).length)
      dsimp only
      refine ⟨by omega, ?_⟩
      rw [hb, listWrite_drop_ge]
      omega

lemma restoreLoop_dpos_writes (dump : List Byte) (bs : Nat) :
    ∀ (n : Nat) (dev : List Byte) (dpos gpos : Nat),
      (restoreLoop dump bs dev dpos gpos n).dpos
        = dpos + (((restoreLoop dump bs dev dpos gpos n).writes).map
            (fun w => w.data.length)).sum := by
  intro n
  induction n with
  | zero => intro dev dpos gpos; simp [restoreLoop]
  | succ n ih =>
    intro dev dpos gpos
    by_cases hblock : (dump.drop gpos).take bs = []
    · rw [restoreLoop_succ, if_pos hblock]
      simp
    · rw [restoreLoop_succ, if_neg hblock]
      dsimp only
      simp only [List.map_cons, List.sum_cons]
      rw [ih]
      omega

lemma restoreLoop_writes_flags (dump : List Byte) (bs : Nat) :
    ∀ (n : Nat) (dev : List Byte) (dpos gpos : Nat) (w : WriteEv),
      w ∈ (restoreLoop dump bs dev dpos gpos n).writes → w.flags = restoreDiskOpenFlags := by
  intro n
  induction n with
  | zero => intro dev dpos gpos w hw; simp [restoreLoop] at hw
  | succ n ih =>
    intro dev dpos gpos w hw
    by_cases hblock : (dump.drop gpos).take bs = []
    · rw [restoreLoop_succ, if_pos hblock] at hw
      simp at hw
    · rw [restoreLoop_succ, if_neg hblock] at hw
      dsimp only at hw
      simp only [List.mem_cons] at hw
      rcases hw with hw | hw
      · rw [hw]
      · exact ih _ _ _ w hw

end Diskdump

namespace Diskdump

lemma cmd_backup_id (D : List Byte) (bs : Nat) (hbs : 1 ≤ bs) : cmd_backup D bs = D := by
  unfold cmd_backup
  rw [backupBlocks_flatten D bs _ 0
    (by have h := (blockCount_mul_bounds D.length bs hbs).1; omega), List.drop_zero]

lemma cmd_restore_full (dev0 D : List Byte) (bs : Nat) (hbs : 1 ≤ bs)
    (hlen : dev0.length = D.length) :
    (cmd_restore dev0 D bs).device = D ∧ (cmd_restore dev0 D bs).gpos = D.length := by
  have h := restoreLoop_full D bs hbs (blockCount dev0.length bs) dev0 0 hlen
    (Nat.zero_le _)
    (by rw [hlen]; have h2 := (blockCount_mul_bounds D.length bs hbs).1; omega)
  unfold cmd_restore
  constructor
  · rw [h.1]; simp
  · exact h.2

lemma cmd_check_self (D : List Byte) (bs : Nat) (hbs : 1 ≤ bs) (hne : D ≠ []) :
    cmd_check D D bs = CheckResult.ok true := by
  have hlen : 1 ≤ D.length := List.length_pos.mpr hne
  have hpos : 1 ≤ blockCount D.length bs := blockCount_pos D.length bs hlen hbs
  obtain ⟨n, hn⟩ : ∃ n, blockCount D.length bs = n + 1 :=
    ⟨blockCount D.length bs - 1, by omega⟩
  have hcl := checkLoop_all_eq D D bs n 0 none (fun j _ _ => rfl)
  rw [Nat.zero_mul, min_eq_left (Nat.zero_le D.length)] at hcl
  unfold cmd_check checkRun
  rw [hn, hcl]

end Diskdump

namespace Diskdump

/-- C1 (amended): for every device content `D` with block size `bs ≥ 1`,
`cmd_backup` produces a dump whose decompressed content equals `D`
exactly, with the final short block preserved and not padded; restoring
that dump onto a device of the same size reproduces `D`, leaves the dump
stream fully consumed (so the trailing assert of source line 269 passes),
and, provided `D` is nonempty, a subsequent check of the restored device
against the dump reports verification success. The empty device must be
excluded: there `cmd_check` raises UnboundLocalError instead of reporting
success (see the counterexample). -/
theorem backup_restore_check_roundtrip (D dev0 : List Byte) (bs : Nat)
    (hbs : 1 ≤ bs) (hlen : dev0.length = D.length) :
    cmd_backup D bs = D
    ∧ (cmd_restore dev0 (cmd_backup D bs) bs).device = D
    ∧ (cmd_restore dev0 (cmd_backup D bs) bs).gpos = D.length
    ∧ (D ≠ [] →
        cmd_check (cmd_restore dev0 (cmd_backup D bs) bs).device (cmd_backup D bs) bs
          = CheckResult.ok true) := by
  have hb : cmd_backup D bs = D := cmd_backup_id D bs hbs
  rw [hb]
  have hr := cmd_restore_full dev0 D bs hbs hlen
  refine ⟨rfl, hr.1, hr.2, fun hne => ?_⟩
  rw [hr.1]
  exact cmd_check_self D bs hbs hne

/-- C1 counterexample: for the empty device with block size 1, the
backup-restore-check round trip does not report verification success: the
check loop body never runs, the local variable `good` is never assigned,
and `cmd_check` ends in UnboundLocalError rather than success. -/
theorem roundtrip_empty_device_fails :
    cmd_check (cmd_restore [] (cmd_backup [] 1) 1).device (cmd_backup [] 1) 1
        = CheckResult.unboundLocalError
    ∧ cmd_check (cmd_restore [] (cmd_backup [] 1) 1).device (cmd_backup [] 1) 1
        ≠ CheckResult.ok true := by decide

/-- C1 witness: the round-trip theorem applied to the ten-byte device of
the concrete spec scenario with block size 4. -/
theorem backup_restore_check_roundtrip_witness :
    ((1:Nat) ≤ 4 ∧ List.length [9,9,9,9,9,9,9,9,9,9]
        = List.length ([0,1,2,3,4,5,6,7,8,9] : List Byte))
    ∧ cmd_backup [0,1,2,3,4,5,6,7,8,9] 4 = [0,1,2,3,4,5,6,7,8,9]
    ∧ (cmd_restore [9,9,9,9,9,9,9,9,9,9] (cmd_backup [0,1,2,3,4,5,6,7,8,9] 4) 4).device
        = [0,1,2,3,4,5,6,7,8,9]
    ∧ (cmd_restore [9,9,9,9,9,9,9,9,9,9] (cmd_backup [0,1,2,3,4,5,6,7,8,9] 4) 4).gpos
        = List.length ([0,1,2,3,4,5,6,7,8,9] : List Byte)
    ∧ cmd_check
        (cmd_restore [9,9,9,9,9,9,9,9,9,9] (cmd_backup [0,1,2,3,4,5,6,7,8,9] 4) 4).device
        (cmd_backup [0,1,2,3,4,5,6,7,8,9] 4) 4 = CheckResult.ok true :=
  ⟨⟨by decide, by decide⟩,
   (backup_restore_check_roundtrip [0,1,2,3,4,5,6,7,8,9] [9,9,9,9,9,9,9,9,9,9] 4
     (by decide) (by decide)).1,
   (backup_restore_check_roundtrip [0,1,2,3,4,5,6,7,8,9] [9,9,9,9,9,9,9,9,9,9] 4
     (by decide) (by decide)).2.1,
   (backup_restore_check_roundtrip [0,1,2,3,4,5,6,7,8,9] [9,9,9,9,9,9,9,9,9,9] 4
     (by decide) (by decide)).2.2.1,
   (backup_restore_check_roundtrip [0,1,2,3,4,5,6,7,8,9] [9,9,9,9,9,9,9,9,9,9] 4
     (by decide) (by decide)).2.2.2 (by decide)⟩

/-- C2: the boolean verification result of a completed check run does not
govern the exit status the way the claim states. A check that succeeds
returns `True` from `cmd_check` through `main` into
`raise SystemExit(main())`, and since Python bool is an int subclass the
process exits with status 1 on success and status 0 on mismatch — the
inverse of the claimed correspondence. -/
theorem check_exit_status_inverted :
    cmd_check [1] [1] 1 = CheckResult.ok true
    ∧ checkProcessExitStatus true = 1
    ∧ checkProcessExitStatus false = 0 := by decide

/-- C3: the early end-of-device guard of the backup loop never fires. The
comparison on source line 149 tests a `bytes` block against a `str`
literal, which is always false in Python 3, so the loop neither breaks
nor stops reading: for every read oracle the loop performs all
`block_count` reads, and in particular a device that immediately returns
zero bytes is still read at every block id. -/
theorem backup_eof_guard_never_fires :
    (∀ (reads : Nat → List Byte) (n i : Nat),
        (backupLoopGen reads i n).brokeEarly = false
        ∧ (backupLoopGen reads i n).readIds = List.range' i n)
    ∧ (backupLoopGen (fun _ => []) 0 2).readIds = [0, 1]
    ∧ (backupLoopGen (fun _ => []) 0 2).brokeEarly = false :=
  ⟨fun reads n i => backupLoopGen_no_break reads n i, by decide, by decide⟩

/-- C4: for a device of size 0 the block count is 0, the check loop body
never executes, the local variable `good` is never assigned, and the
`if good:` on source line 218 raises UnboundLocalError instead of
reporting verification success, whatever the dump content and block size. -/
theorem check_empty_device_unbound_local :
    ∀ (dump : List Byte) (bs : Nat),
      cmd_check [] dump bs = CheckResult.unboundLocalError := by
  intro dump bs
  have h : blockCount (List.length ([] : List Byte)) bs = 0 := blockCount_zero bs
  unfold cmd_check checkRun
  rw [h]
  rfl

end Diskdump

namespace Diskdump

/-- C5 counterexample: validation of both sides before any size
computation does not hold. Backup run on a dump whose node is not a
regular file performs no dump-side validation at all and reaches its
block loop without any validation error, and Check computes the device
size (seek to end, source lines 177-178) before it validates the dump
side (lines 181-183). -/
theorem validation_scope_counterexample :
    Ev.checkDumpIsReg ∉ backupTrace NodeKind.blockDevice NodeKind.other
    ∧ Ev.validationFail Side.dump ∉ backupTrace NodeKind.blockDevice NodeKind.other
    ∧ Ev.blockLoop ∈ backupTrace NodeKind.blockDevice NodeKind.other
    ∧ occursBefore Ev.seekEndDisk Ev.checkDumpIsReg
        (checkTrace NodeKind.blockDevice NodeKind.regularFile) := by decide

/-- C5 (amended): every operation validates the device side before its
size computation and fails with a validation error naming the disk side
when the device node is not block-special, in which case no size
computation happens; Info also validates the dump side before any size
computation, and fails naming the dump side when the dump node is not a
regular file; Check and Restore do validate the dump side and skip the
block loop on a bad dump node, but only after the device size has already
been computed; Backup never validates the dump side. -/
theorem validation_actual_order (dk gk : NodeKind) :
    (dk = NodeKind.blockDevice →
        occursBefore Ev.checkDiskIsBlk Ev.seekEndDisk (backupTrace dk gk)
        ∧ occursBefore Ev.checkDiskIsBlk Ev.seekEndDisk (checkTrace dk gk)
        ∧ occursBefore Ev.checkDiskIsBlk Ev.seekEndDisk (restoreTrace dk gk)
        ∧ occursBefore Ev.seekEndDisk Ev.checkDumpIsReg (checkTrace dk gk)
        ∧ occursBefore Ev.seekEndDisk Ev.checkDumpIsReg (restoreTrace dk gk))
    ∧ (dk ≠ NodeKind.blockDevice →
        Ev.validationFail Side.disk ∈ backupTrace dk gk
        ∧ Ev.validationFail Side.disk ∈ checkTrace dk gk
        ∧ Ev.validationFail Side.disk ∈ restoreTrace dk gk
        ∧ Ev.validationFail Side.disk ∈ infoTrace dk gk
        ∧ Ev.seekEndDisk ∉ backupTrace dk gk
        ∧ Ev.seekEndDisk ∉ checkTrace dk gk
        ∧ Ev.seekEndDisk ∉ restoreTrace dk gk
        ∧ Ev.seekEndDisk ∉ infoTrace dk gk)
    ∧ Ev.checkDumpIsReg ∉ backupTrace dk gk
    ∧ (dk = NodeKind.blockDevice ∧ gk = NodeKind.regularFile →
        occursBefore Ev.checkDiskIsBlk Ev.seekEndDisk (infoTrace dk gk)
        ∧ occursBefore Ev.checkDumpIsReg Ev.seekEndDisk (infoTrace dk gk))
    ∧ (dk = NodeKind.blockDevice ∧ gk ≠ NodeKind.regularFile →
        Ev.validationFail Side.dump ∈ infoTrace dk gk
        ∧ Ev.validationFail Side.dump ∈ checkTrace dk gk
        ∧ Ev.validationFail Side.dump ∈ restoreTrace dk gk
        ∧ Ev.blockLoop ∉ checkTrace dk gk
        ∧ Ev.blockLoop ∉ restoreTrace dk gk) := by
  cases dk <;> cases gk <;>
    exact ⟨by decide, by decide, by decide, by decide, by decide⟩

/-- C5 witness: the amended validation-order theorem applied to a proper
block device and regular file, and to a backup with a bad dump node. -/
theorem validation_actual_order_witness :
    occursBefore Ev.checkDiskIsBlk Ev.seekEndDisk
        (backupTrace NodeKind.blockDevice NodeKind.regularFile)
    ∧ occursBefore Ev.seekEndDisk Ev.checkDumpIsReg
        (checkTrace NodeKind.blockDevice NodeKind.regularFile)
    ∧ Ev.checkDumpIsReg ∉ backupTrace NodeKind.blockDevice NodeKind.other :=
  ⟨((validation_actual_order NodeKind.blockDevice NodeKind.regularFile).1 rfl).1,
   ((validation_actual_order NodeKind.blockDevice NodeKind.regularFile).1 rfl).2.2.2.1,
   (validation_actual_order NodeKind.blockDevice NodeKind.other).2.2.1⟩

/-- C6 counterexample: the claim that both handles are closed on every
error path after handle acquisition has started fails when the dump open
itself raises: the device handle has already been acquired, the error
surfaces, and the device handle is not closed, because the try/finally
that releases the handles only begins after both opens. -/
theorem handle_leak_on_dump_open_failure :
    (commandHandles false true false).diskAcquired = true
    ∧ (commandHandles false true false).errored = true
    ∧ (commandHandles false true false).diskClosed = false := by decide

/-- C6 (amended): once both handles have been acquired, both are closed
on every exit path, including the path where the command body raises; but
when acquiring the dump handle fails after the device handle is open, the
device handle is not closed before the error surfaces. -/
theorem handles_closed_after_both_acquired :
    ∀ (bodyFails : Bool),
      (commandHandles false false bodyFails).diskClosed = true
      ∧ (commandHandles false false bodyFails).dumpClosed = true
      ∧ (commandHandles false false bodyFails).errored = bodyFails
      ∧ (commandHandles false true bodyFails).diskClosed = false := by
  intro b
  cases b <;> decide

/-- C7: for every device content and every block size at least 1, the
session block count `(size + bs - 1) / bs` is the ceiling of
`size / bs` (stated both through the Mathlib ceiling division on Nat and
through the two defining inequalities), and the total number of bytes
read across all blocks of a stable device equals the device size
exactly. -/
theorem session_block_accounting (D : List Byte) (bs : Nat) (hbs : 1 ≤ bs) :
    blockCount D.length bs = D.length ⌈/⌉ bs
    ∧ D.length ≤ blockCount D.length bs * bs
    ∧ blockCount D.length bs * bs < D.length + bs
    ∧ ((backupBlocks D bs 0 (blockCount D.length bs)).map List.length).sum = D.length := by
  refine ⟨rfl, (blockCount_mul_bounds D.length bs hbs).1,
    (blockCount_mul_bounds D.length bs hbs).2, ?_⟩
  rw [← List.length_flatten, backupBlocks_flatten D bs _ 0
    (by have h := (blockCount_mul_bounds D.length bs hbs).1; omega), List.drop_zero]

/-- C7 witness: the concrete spec scenario, a ten-byte device with block
size 4: block count 3 and block lengths 4, 4, 2 summing to 10. -/
theorem session_block_accounting_witness :
    ((1:Nat) ≤ 4)
    ∧ (blockCount (List.length ([0,1,2,3,4,5,6,7,8,9] : List Byte)) 4
          = List.length ([0,1,2,3,4,5,6,7,8,9] : List Byte) ⌈/⌉ 4
       ∧ List.length ([0,1,2,3,4,5,6,7,8,9] : List Byte)
          ≤ blockCount (List.length ([0,1,2,3,4,5,6,7,8,9] : List Byte)) 4 * 4
       ∧ blockCount (List.length ([0,1,2,3,4,5,6,7,8,9] : List Byte)) 4 * 4
          < List.length ([0,1,2,3,4,5,6,7,8,9] : List Byte) + 4
       ∧ ((backupBlocks [0,1,2,3,4,5,6,7,8,9] 4 0
            (blockCount (List.length ([0,1,2,3,4,5,6,7,8,9] : List Byte)) 4)).map
            List.length).sum = List.length ([0,1,2,3,4,5,6,7,8,9] : List Byte))
    ∧ blockCount 10 4 = 3
    ∧ (backupBlocks [0,1,2,3,4,5,6,7,8,9] 4 0 3).map List.length = [4, 4, 2] :=
  ⟨by decide, session_block_accounting [0,1,2,3,4,5,6,7,8,9] 4 (by decide),
   by decide, by decide⟩

end Diskdump

namespace Diskdump

/-- C8: when block id `k` is the first block at which the device and the
decompressed dump differ, the check loop records verification as failed,
reports block id `k` as the diverging block, and stops: the set of block
ids on which a comparison was performed is exactly `0, ..., k`, so no
block with id greater than `k` is compared or reported. -/
theorem check_reports_first_mismatch (disk dump : List Byte) (bs k : Nat)
    (hk : k < blockCount disk.length bs)
    (hpre : ∀ j, j < k → chunkAt dump bs j = chunkAt disk bs j)
    (hne : chunkAt dump bs k ≠ chunkAt disk bs k) :
    cmd_check disk dump bs = CheckResult.ok false
    ∧ (checkRun disk dump bs).good = some false
    ∧ (checkRun disk dump bs).mismatchAt = some k
    ∧ (checkRun disk dump bs).compared = List.range (k + 1) := by
  have hcl := checkLoop_first_mismatch disk dump bs (blockCount disk.length bs) 0 k none
    (Nat.zero_le k) (by omega) (fun j _ hj => hpre j hj) hne
  rw [Nat.zero_mul, min_eq_left (Nat.zero_le disk.length),
    min_eq_left (Nat.zero_le dump.length), Nat.sub_zero] at hcl
  have hrun : checkRun disk dump bs
      = ⟨some false, some k, List.range' 0 (k + 1)⟩ := hcl
  refine ⟨?_, by rw [hrun], by rw [hrun], by rw [hrun]; exact (List.range_eq_range' _).symm⟩
  unfold cmd_check
  rw [hrun]

/-- C8 witness: a four-byte device against a dump that differs in its
second block with block size 2: the mismatch is reported at block id 1
and exactly blocks 0 and 1 are compared. -/
theorem check_reports_first_mismatch_witness :
    (1 < blockCount (List.length ([1,2,3,4] : List Byte)) 2
     ∧ chunkAt [1,2,9,4] 2 0 = chunkAt [1,2,3,4] 2 0
     ∧ chunkAt [1,2,9,4] 2 1 ≠ chunkAt [1,2,3,4] 2 1)
    ∧ (cmd_check [1,2,3,4] [1,2,9,4] 2 = CheckResult.ok false
       ∧ (checkRun [1,2,3,4] [1,2,9,4] 2).good = some false
       ∧ (checkRun [1,2,3,4] [1,2,9,4] 2).mismatchAt = some 1
       ∧ (checkRun [1,2,3,4] [1,2,9,4] 2).compared = List.range (1 + 1)) :=
  ⟨⟨by decide, by decide, by decide⟩,
   check_reports_first_mismatch [1,2,3,4] [1,2,9,4] 2 1 (by decide) (by decide) (by decide)⟩

/-- C9: every write to the device performed during restore goes through
the descriptor opened on source line 232 with `O_WRONLY` and `O_SYNC`, so
synchronous durable writing is requested for every block written. -/
theorem restore_writes_synchronous (dev dump : List Byte) (bs : Nat) (w : WriteEv)
    (hw : w ∈ (cmd_restore dev dump bs).writes) :
    w.flags.writeOnly = true ∧ w.flags.sync = true := by
  have h := restoreLoop_writes_flags dump bs (blockCount dev.length bs) dev 0 0 w hw
  rw [h]
  exact ⟨rfl, rfl⟩

/-- C9 witness: the single write of a one-byte restore carries the
write-only synchronous flags. -/
theorem restore_writes_synchronous_witness :
    ((⟨[1], restoreDiskOpenFlags⟩ : WriteEv) ∈ (cmd_restore [0] [1] 1).writes)
    ∧ ((⟨[1], restoreDiskOpenFlags⟩ : WriteEv).flags.writeOnly = true
       ∧ (⟨[1], restoreDiskOpenFlags⟩ : WriteEv).flags.sync = true) :=
  ⟨by decide,
   restore_writes_synchronous [0] [1] 1 ⟨[1], restoreDiskOpenFlags⟩ (by decide)⟩

/-- C10: when the decompressed dump stream yields zero bytes at some
block id before the block count is exhausted (the early-EOF break of
source line 259 fires), the total number of device bytes written equals
the sum of the lengths of the blocks written, and every device byte at an
offset at or beyond that total is unchanged: only the prefix of the
device covered by the dump data read so far is modified. -/
theorem restore_early_eof_frame (dev dump : List Byte) (bs : Nat)
    (h : (cmd_restore dev dump bs).earlyEOF = true) :
    (cmd_restore dev dump bs).dpos
        = (((cmd_restore dev dump bs).writes).map (fun w => w.data.length)).sum
    ∧ (cmd_restore dev dump bs).device.drop
          ((((cmd_restore dev dump bs).writes).map (fun w => w.data.length)).sum)
        = dev.drop ((((cmd_restore dev dump bs).writes).map (fun w => w.data.length)).sum) := by
  have hd := restoreLoop_dpos_writes dump bs (blockCount dev.length bs) dev 0 0
  have hs := restoreLoop_suffix dump bs (blockCount dev.length bs) dev 0 0
  rw [Nat.zero_add] at hd
  constructor
  · exact hd
  · have he : (((cmd_restore dev dump bs).writes).map (fun w => w.data.length)).sum
        = (cmd_restore dev dump bs).dpos := hd.symm
    rw [he]
    exact hs.2

/-- C10 witness: restoring a two-byte dump onto a four-byte device with
block size 2 hits the early EOF at block id 1 after writing two bytes,
and the last two device bytes are untouched. -/
theorem restore_early_eof_frame_witness :
    (cmd_restore [5,6,7,8] [1,2] 2).earlyEOF = true
    ∧ ((cmd_restore [5,6,7,8] [1,2] 2).dpos
          = (((cmd_restore [5,6,7,8] [1,2] 2).writes).map (fun w => w.data.length)).sum
       ∧ (cmd_restore [5,6,7,8] [1,2] 2).device.drop
             ((((cmd_restore [5,6,7,8] [1,2] 2).writes).map (fun w => w.data.length)).sum)
           = List.drop
               ((((cmd_restore [5,6,7,8] [1,2] 2).writes).map (fun w => w.data.length)).sum)
               [5,6,7,8]) :=
  ⟨by decide, restore_early_eof_frame [5,6,7,8] [1,2] 2 (by decide)⟩

end Diskdump
